import Mathlib

/-!
# Verification of the payvest simulation engine

A shallow embedding, over `ℚ`, of `app/models/finance.py`: the amortization
calculator, the month-by-month single-run simulator, the Monte Carlo
aggregation and the scenario orchestrator, together with theorems settling
the frozen claims about them.  Python floats are modelled as rationals,
Python exceptions as an `Except` error monad, and `random.gauss(mu, sigma)`
as `mu + sigma * g` for an arbitrary standard-normal draw `g`.
-/

namespace Payvest

/-! ## Constants (`app/models/constants.py`) -/

def MONTHS_PER_YEAR : ℚ := 12

/-- Threshold for considering a loan paid off (`1e-8`). -/
def LOAN_BALANCE_EPSILON : ℚ := 1 / 100000000

/-- Tolerance for the minimum-payment check (`1e-6`). -/
def BUDGET_EPSILON : ℚ := 1 / 1000000

/-! ## Data model (`finance.py` dataclasses) -/

structure LoanInput where
  principal : ℚ
  apr : ℚ
  term_months : ℕ
deriving DecidableEq

structure InvestmentInput where
  initial_amount : ℚ
  monthly_contribution : ℚ
  annual_return : ℚ
  annual_fee_pct : ℚ
deriving DecidableEq

structure SimulationConfig where
  loans : List LoanInput
  investment : InvestmentInput
  monthly_budget : ℚ
  horizon_years : ℕ
  split_pct_invest : ℚ
  debt_strategy : String
  monte_carlo_runs : ℕ
  return_volatility : ℚ
deriving DecidableEq

structure YearlyBreakdown where
  year : ℕ
  loan_interest_paid : ℚ
  loan_principal_paid : ℚ
  loan_balance_end : ℚ
  invested_total : ℚ
  investment_returns : ℚ
  investment_balance_end : ℚ
deriving DecidableEq

/-! ## Amortization calculator -/

/-- `_monthly_rate`: APR divided by 12. -/
def monthly_rate (apr : ℚ) : ℚ :=
  apr / MONTHS_PER_YEAR

/-- `_amortized_payment`: fixed monthly payment of a fully amortizing loan. -/
def amortized_payment (principal mrate : ℚ) (term_months : ℕ) : ℚ :=
  if principal ≤ 0 then 0
  else if mrate = 0 then principal / term_months
  else
    principal * (mrate * (1 + mrate) ^ term_months) /
      ((1 + mrate) ^ term_months - 1)

/-! ## Single-run simulator (`_simulate_single_run`)

Per-loan state: the mutable balance plus the fixed monthly rate and fixed
base (minimum) payment computed once from the initial principal. -/

structure LoanState where
  balance : ℚ
  rate : ℚ
  base : ℚ
deriving DecidableEq

/-- Lines 175-181: initial balances, rates and base payments
(`_amortized_payment(p, r, t) if t > 0 else 0.0`). -/
def initLoanState (l : LoanInput) : LoanState :=
  { balance := l.principal
    rate := monthly_rate l.apr
    base :=
      if l.term_months > 0 then
        amortized_payment l.principal (monthly_rate l.apr) l.term_months
      else 0 }

/-- Line 212-214: a loan is active when its balance exceeds
`LOAN_BALANCE_EPSILON`. -/
def isActive (s : LoanState) : Bool :=
  LOAN_BALANCE_EPSILON < s.balance

/-- `len(active_indices)`. -/
def activeCount (loans : List LoanState) : ℕ :=
  (loans.filter isActive).length

/-- Line 215: `min_loan_payments`, sum of base payments of active loans. -/
def minLoanPayments (loans : List LoanState) : ℚ :=
  ((loans.filter isActive).map (·.base)).sum

/-- Lines 216-217: `discretionary_budget = max(0, budget - min_loan_payments)`. -/
def discretionaryBudget (budget : ℚ) (loans : List LoanState) : ℚ :=
  max 0 (budget - minLoanPayments loans)

/-- Lines 218-235: the month's investment contribution, by scenario. -/
def investContrib (budget allocate : ℚ) (loans : List LoanState)
    (freed : ℚ) : ℚ :=
  if allocate = 1 then discretionaryBudget budget loans
  else if allocate = 0 then
    if activeCount loans = 0 then budget else 0
  else
    if activeCount loans = 0 then budget
    else discretionaryBudget budget loans * allocate + freed

/-- Lines 236-240: the equal extra paydown assigned to each active loan
(`extra_total / len(active_indices)`); inactive loans receive 0, which
`stepLoan` realises through its inactivity branch. -/
def extraPerLoan (budget allocate : ℚ) (loans : List LoanState) : ℚ :=
  if allocate < 1 ∧ activeCount loans ≠ 0 then
    discretionaryBudget budget loans * (1 - allocate) /
      (activeCount loans : ℚ)
  else 0

/-- Lines 242-254, body of the per-loan loop for one active loan:
returns the updated loan state, the accrued interest, the principal
applied, and the amount added to `freed_payments`.  Inactive loans are
untouched and contribute nothing. -/
def stepLoan (extra : ℚ) (s : LoanState) : LoanState × ℚ × ℚ × ℚ :=
  if isActive s then
    let interest := s.balance * s.rate
    let principal_payment := max 0 (s.base - interest)
    let principal_applied := min s.balance (principal_payment + extra)
    let newBal := s.balance - principal_applied
    let freedAdd :=
      if newBal < LOAN_BALANCE_EPSILON ∧ 0 < s.base then s.base else 0
    ({ s with balance := newBal }, interest, principal_applied, freedAdd)
  else (s, 0, 0, 0)

/-- Full mutable state of one `_simulate_single_run` invocation. -/
structure RunState where
  loans : List LoanState
  investment_balance : ℚ
  year_interest_paid : ℚ
  year_principal_paid : ℚ
  year_invested_total : ℚ
  year_investment_returns : ℚ
  freed_payments : ℚ
  yearly : List YearlyBreakdown
deriving DecidableEq

/-- Lines 211-265: the state mutations of one iteration of the monthly
loop, before the yearly emission.  `freed_payments` is read for the
contribution before the loan loop and only augmented by it. -/
def monthCore (budget allocate mret mfee : ℚ) (st : RunState) : RunState :=
  let contrib := investContrib budget allocate st.loans st.freed_payments
  let extra := extraPerLoan budget allocate st.loans
  let results := st.loans.map (stepLoan extra)
  let newInv := (st.investment_balance + contrib) * (1 + mret) * (1 - mfee)
  { loans := results.map (·.1)
    investment_balance := newInv
    year_interest_paid :=
      st.year_interest_paid + (results.map (fun r => r.2.1)).sum
    year_principal_paid :=
      st.year_principal_paid + (results.map (fun r => r.2.2.1)).sum
    year_invested_total := st.year_invested_total + contrib
    year_investment_returns := st.year_investment_returns +
      (newInv - (st.investment_balance + contrib))
    freed_payments :=
      st.freed_payments + (results.map (fun r => r.2.2.2)).sum
    yearly := st.yearly }

/-- Lines 211-282: one full iteration of the monthly loop (`m` is the
1-based month number); every 12th month the accumulated yearly totals are
emitted and reset (lines 266-282). -/
def monthStep (budget allocate mret mfee : ℚ) (m : ℕ)
    (st : RunState) : RunState :=
  let s := monthCore budget allocate mret mfee st
  if m % 12 = 0 then
    { loans := s.loans
      investment_balance := s.investment_balance
      year_interest_paid := 0
      year_principal_paid := 0
      year_invested_total := 0
      year_investment_returns := 0
      freed_payments := s.freed_payments
      yearly := s.yearly ++
        [{ year := m / 12
           loan_interest_paid := s.year_interest_paid
           loan_principal_paid := s.year_principal_paid
           loan_balance_end := (s.loans.map (·.balance)).sum
           invested_total := s.year_invested_total
           investment_returns := s.year_investment_returns
           investment_balance_end := s.investment_balance }] }
  else s

/-- The monthly loop for months `1 .. months`. -/
def runMonths (budget allocate mret mfee : ℚ) (months : ℕ)
    (st : RunState) : RunState :=
  (List.range months).foldl
    (fun s k => monthStep budget allocate mret mfee (k + 1) s) st

/-- The two exception kinds of the engine (`NotImplementedError` at lines
169-172, `ValueError` at lines 185-189). -/
inductive SimError where
  | notImplemented (strategy : String)
  | insufficientBudget (budget min_total : ℚ)
deriving DecidableEq

/-- The `Tuple[List[YearlyBreakdown], float, float]` returned by
`_simulate_single_run`. -/
structure SingleRunOutput where
  yearly : List YearlyBreakdown
  loans_remaining_balance : ℚ
  investment_balance : ℚ
deriving DecidableEq

/-- Initial `RunState` of a run (lines 175-210). -/
def initState (cfg : SimulationConfig) : RunState :=
  { loans := cfg.loans.map initLoanState
    investment_balance := cfg.investment.initial_amount
    year_interest_paid := 0
    year_principal_paid := 0
    year_invested_total := 0
    year_investment_returns := 0
    freed_payments := 0
    yearly := [] }

/-- Line 184: `min_total_payment = sum(base_payments)` (loans with
`term_months ≤ 0` contribute 0). -/
def min_total_payment (cfg : SimulationConfig) : ℚ :=
  ((cfg.loans.map initLoanState).map (·.base)).sum

/-- `_simulate_single_run`, with the (possibly sampled) annual return
passed explicitly.  The two raises become `Except.error`; on error no
yearly breakdown exists and no balance was touched, since the error is
returned before the monthly loop runs. -/
def simulate_single_run (cfg : SimulationConfig)
    (allocate_invest annual_r : ℚ) : Except SimError SingleRunOutput :=
  if cfg.debt_strategy ≠ "proportional" then
    .error (.notImplemented cfg.debt_strategy)
  else if cfg.monthly_budget < min_total_payment cfg - BUDGET_EPSILON then
    .error (.insufficientBudget cfg.monthly_budget (min_total_payment cfg))
  else
    let months := cfg.horizon_years * 12
    let monthly_fee := cfg.investment.annual_fee_pct / MONTHS_PER_YEAR
    let monthly_return := annual_r / 12
    let final := runMonths cfg.monthly_budget allocate_invest
      monthly_return monthly_fee months (initState cfg)
    .ok { yearly := final.yearly
          loans_remaining_balance := (final.loans.map (·.balance)).sum
          investment_balance := final.investment_balance }

/-- `random.gauss(mu, sigma)` modelled as `mu + sigma * g` where `g` is an
arbitrary standard-normal draw. -/
def gaussSample (mu sigma g : ℚ) : ℚ :=
  mu + sigma * g

/-! ## Monte Carlo engine (`_run_monte_carlo`) -/

structure MonteCarloResult where
  name : String
  mean_net_worth : ℚ
  median_net_worth : ℚ
  percentile_10 : ℚ
  percentile_90 : ℚ
  success_probability : ℚ
  yearly_medians : List YearlyBreakdown
deriving DecidableEq

/-- Ascending sort, as Python's `list.sort()`. -/
def sortQ (l : List ℚ) : List ℚ :=
  l.insertionSort (· ≤ ·)

/-- `sorted(values)[len(values) // 2]`, the nearest-rank field median used
for the composite yearly medians. -/
def fieldMedian (l : List ℚ) : ℚ :=
  (sortQ l).getD (l.length / 2) 0

/-- Lines 325-357: composite per-year median breakdown, each field
independently sorted across the runs that reached that year. -/
def yearlyMedians (horizon_years : ℕ)
    (all : List (List YearlyBreakdown)) : List YearlyBreakdown :=
  (List.range horizon_years).filterMap fun year =>
    let year_data := all.filterMap fun result => result.get? year
    if year_data.isEmpty then none
    else
      some
        { year := year + 1
          loan_interest_paid :=
            fieldMedian (year_data.map (·.loan_interest_paid))
          loan_principal_paid :=
            fieldMedian (year_data.map (·.loan_principal_paid))
          loan_balance_end :=
            fieldMedian (year_data.map (·.loan_balance_end))
          invested_total :=
            fieldMedian (year_data.map (·.invested_total))
          investment_returns :=
            fieldMedian (year_data.map (·.investment_returns))
          investment_balance_end :=
            fieldMedian (year_data.map (·.investment_balance_end)) }

/-- Lines 307-313: the Monte Carlo loop, one sampled draw per run; the
first raised exception propagates. -/
def runAll (cfg : SimulationConfig) (allocate_invest : ℚ) :
    List ℚ → Except SimError (List SingleRunOutput)
  | [] => .ok []
  | g :: gs =>
    match simulate_single_run cfg allocate_invest
        (gaussSample cfg.investment.annual_return cfg.return_volatility g) with
    | .error e => .error e
    | .ok o =>
      match runAll cfg allocate_invest gs with
      | .error e => .error e
      | .ok rest => .ok (o :: rest)

/-- `_run_monte_carlo`, with `gs` the per-run standard-normal draws
(`len(gs) = cfg.monte_carlo_runs` in the Python call).  Nearest-rank
indices `int(p * n)` are `⌊p·n⌋`, i.e. `n / 10`, `n / 2`, `9 * n / 10`
in natural division. -/
def run_monte_carlo (cfg : SimulationConfig) (allocate_invest : ℚ)
    (gs : List ℚ) : Except SimError MonteCarloResult :=
  match runAll cfg allocate_invest gs with
  | .error e => .error e
  | .ok runs =>
    let final_net_worths :=
      runs.map fun o => o.investment_balance - o.loans_remaining_balance
    let sorted := sortQ final_net_worths
    let n := sorted.length
    .ok
      { name := ""
        mean_net_worth := sorted.sum / (n : ℚ)
        median_net_worth := sorted.getD (n / 2) 0
        percentile_10 := sorted.getD (n / 10) 0
        percentile_90 := sorted.getD (9 * n / 10) 0
        success_probability :=
          ((final_net_worths.filter (fun nw => 0 < nw)).length : ℚ) / (n : ℚ)
        yearly_medians :=
          yearlyMedians cfg.horizon_years (runs.map (·.yearly)) }

/-! ## Scenario orchestrator (`run_scenarios`) -/

structure ScenarioResult where
  name : String
  yearly : List YearlyBreakdown
  final_net_worth : ℚ
  loans_remaining_balance : ℚ
  investment_balance : ℚ
  monte_carlo : Option MonteCarloResult
deriving DecidableEq

/-- The `Dict[str, ScenarioResult]` with its three fixed keys. -/
structure ScenarioMap where
  loan_first : ScenarioResult
  invest_first : ScenarioResult
  split : ScenarioResult
deriving DecidableEq

/-- Lines 395-414, one iteration of the scenario loop: the deterministic
pass, then the Monte Carlo batch when `monte_carlo_runs > 1`. -/
def run_scenario (cfg : SimulationConfig) (allocate_invest : ℚ)
    (name : String) (gs : List ℚ) : Except SimError ScenarioResult :=
  match simulate_single_run cfg allocate_invest
      cfg.investment.annual_return with
  | .error e => .error e
  | .ok det =>
    let mc : Except SimError (Option MonteCarloResult) :=
      if cfg.monte_carlo_runs > 1 then
        match run_monte_carlo cfg allocate_invest gs with
        | .error e => .error e
        | .ok r => .ok (some { r with name := name })
      else .ok none
    match mc with
    | .error e => .error e
    | .ok mcr =>
      .ok
        { name := name
          yearly := det.yearly
          final_net_worth :=
            det.investment_balance - det.loans_remaining_balance
          loans_remaining_balance := det.loans_remaining_balance
          investment_balance := det.investment_balance
          monte_carlo := mcr }

/-- `run_scenarios`: the three canonical allocation points, with one list
of per-run draws for each scenario's Monte Carlo batch. -/
def run_scenarios (cfg : SimulationConfig)
    (gs1 gs2 gs3 : List ℚ) : Except SimError ScenarioMap :=
  match run_scenario cfg 0 "Loan-first" gs1 with
  | .error e => .error e
  | .ok lf =>
    match run_scenario cfg 1 "Invest-first" gs2 with
    | .error e => .error e
    | .ok inv =>
      match run_scenario cfg cfg.split_pct_invest
          ("Split (" ++ toString ⌊cfg.split_pct_invest * 100⌋ ++ "% invest)")
          gs3 with
      | .error e => .error e
      | .ok sp =>
        .ok { loan_first := lf, invest_first := inv, split := sp }

/-! ## Concrete configurations and expected outputs used by the
theorems below -/

/-- A config whose single 1200-at-0%-over-12-months loan needs 100/month,
against a budget of 50: the insufficient-budget case. -/
def cfgBudget : SimulationConfig :=
  { loans := [{ principal := 1200, apr := 0, term_months := 12 }]
    investment :=
      { initial_amount := 0, monthly_contribution := 0
        annual_return := 0, annual_fee_pct := 0 }
    monthly_budget := 50
    horizon_years := 1
    split_pct_invest := 1/2
    debt_strategy := "proportional"
    monte_carlo_runs := 1
    return_volatility := 0 }

/-- A config requesting the unimplemented avalanche strategy. -/
def cfgAvalanche : SimulationConfig :=
  { cfgBudget with debt_strategy := "avalanche", monthly_budget := 1000 }

instance {ε α : Type _} [DecidableEq ε] [DecidableEq α] :
    DecidableEq (Except ε α) := fun a b =>
  match a, b with
  | .ok x, .ok y =>
    if h : x = y then .isTrue (by rw [h])
    else .isFalse (fun hc => h (Except.ok.inj hc))
  | .ok _, .error _ => .isFalse (fun hc => Except.noConfusion hc)
  | .error _, .ok _ => .isFalse (fun hc => Except.noConfusion hc)
  | .error x, .error y =>
    if h : x = y then .isTrue (by rw [h])
    else .isFalse (fun hc => h (Except.error.inj hc))

/-- Split-mode config whose single loan (10 at 0% over 10 months, base
payment 1) is paid off in the first month by the extra paydown. -/
def cfgSplitPayoff : SimulationConfig :=
  { loans := [{ principal := 10, apr := 0, term_months := 10 }]
    investment :=
      { initial_amount := 0, monthly_contribution := 0
        annual_return := 0, annual_fee_pct := 0 }
    monthly_budget := 100
    horizon_years := 1
    split_pct_invest := 1/2
    debt_strategy := "proportional"
    monte_carlo_runs := 1
    return_volatility := 0 }

/-- A one-loan state where the month's accrued interest (100 · 1 = 100)
exceeds the loan's fixed payment 1. -/
def stHighInterest : RunState :=
  { loans := [{ balance := 100, rate := 1, base := 1 }]
    investment_balance := 0
    year_interest_paid := 0
    year_principal_paid := 0
    year_invested_total := 0
    year_investment_returns := 0
    freed_payments := 0
    yearly := [] }

/-- The invariant of C7: every loan balance, the investment balance and
the freed-payment counter are non-negative. -/
abbrev NonnegState (st : RunState) : Prop :=
  (∀ s ∈ st.loans, 0 ≤ s.balance) ∧
  0 ≤ st.investment_balance ∧ 0 ≤ st.freed_payments

/-- A §6-conforming config (all fields non-negative) with
`annual_fee_pct = 18`, i.e. a monthly fee of 150%. -/
def cfgFee : SimulationConfig :=
  { loans := []
    investment :=
      { initial_amount := 0, monthly_contribution := 0
        annual_return := 0, annual_fee_pct := 18 }
    monthly_budget := 100
    horizon_years := 1
    split_pct_invest := 1/2
    debt_strategy := "proportional"
    monte_carlo_runs := 1
    return_volatility := 0 }

/-- The deterministic split run of `cfgSplitPayoff`. -/
def outSplitPayoff : SingleRunOutput :=
  { yearly := [{ year := 1, loan_interest_paid := 0
                 loan_principal_paid := 10, loan_balance_end := 0
                 invested_total := 2299/2, investment_returns := 0
                 investment_balance_end := 2299/2 }]
    loans_remaining_balance := 0
    investment_balance := 2299/2 }

/-- A two-run Monte Carlo config: no loans, initial investment 100, zero
return, fee and volatility. -/
def cfgMC : SimulationConfig :=
  { loans := []
    investment :=
      { initial_amount := 100, monthly_contribution := 0
        annual_return := 0, annual_fee_pct := 0 }
    monthly_budget := 0
    horizon_years := 1
    split_pct_invest := 1/2
    debt_strategy := "proportional"
    monte_carlo_runs := 2
    return_volatility := 0 }

/-- The aggregate of `run_monte_carlo cfgMC 0 [0, 0]`: both runs end with
net worth 100. -/
def mcOut : MonteCarloResult :=
  { name := ""
    mean_net_worth := 100
    median_net_worth := 100
    percentile_10 := 100
    percentile_90 := 100
    success_probability := 1
    yearly_medians := [{ year := 1, loan_interest_paid := 0
                         loan_principal_paid := 0, loan_balance_end := 0
                         invested_total := 0, investment_returns := 0
                         investment_balance_end := 100 }] }

end Payvest

namespace Payvest

theorem monthStep_loans (budget allocate mret mfee : ℚ) (m : ℕ)
    (st : RunState) :
    (monthStep budget allocate mret mfee m st).loans
      = (monthCore budget allocate mret mfee st).loans := by
  unfold monthStep
  by_cases h : m % 12 = 0 <;> simp [h]

theorem monthStep_investment_balance (budget allocate mret mfee : ℚ)
    (m : ℕ) (st : RunState) :
    (monthStep budget allocate mret mfee m st).investment_balance
      = (monthCore budget allocate mret mfee st).investment_balance := by
  unfold monthStep
  by_cases h : m % 12 = 0 <;> simp [h]

theorem monthStep_freed_payments (budget allocate mret mfee : ℚ)
    (m : ℕ) (st : RunState) :
    (monthStep budget allocate mret mfee m st).freed_payments
      = (monthCore budget allocate mret mfee st).freed_payments := by
  unfold monthStep
  by_cases h : m % 12 = 0 <;> simp [h]

/-- C3: `_amortized_payment` returns 0 for `principal ≤ 0`,
`principal / term_months` for zero rate, the annuity formula
`principal * r*(1+r)^n / ((1+r)^n - 1)` otherwise, and for every principal,
rate ≥ 0 and term ≥ 1 the result is a (finite, since rational) non-negative
number — no division by zero occurs since `(1+r)^n - 1 > 0` when `r > 0`. -/
theorem amortized_payment_spec (principal mrate : ℚ) (term_months : ℕ)
    (hr : 0 ≤ mrate) (ht : 1 ≤ term_months) :
    (principal ≤ 0 → amortized_payment principal mrate term_months = 0) ∧
    (0 < principal → mrate = 0 →
      amortized_payment principal mrate term_months
        = principal / term_months) ∧
    (0 < principal → 0 < mrate →
      amortized_payment principal mrate term_months
        = principal * (mrate * (1 + mrate) ^ term_months) /
            ((1 + mrate) ^ term_months - 1)) ∧
    0 ≤ amortized_payment principal mrate term_months := by
  unfold amortized_payment
  refine ⟨fun hp => by rw [if_pos hp], fun hp h0 => ?_, fun hp h0 => ?_, ?_⟩
  · rw [if_neg (not_le.mpr hp), if_pos h0]
  · rw [if_neg (not_le.mpr hp), if_neg (ne_of_gt h0)]
  · by_cases hp : principal ≤ 0
    · rw [if_pos hp]
    · rw [if_neg hp]
      push_neg at hp
      by_cases h0 : mrate = 0
      · rw [if_pos h0]
        positivity
      · rw [if_neg h0]
        have hm : 0 < mrate := lt_of_le_of_ne hr (Ne.symm h0)
        have hpow : 1 < (1 + mrate) ^ term_months := by
          have h1 : 1 < 1 + mrate := by linarith
          calc (1 : ℚ) < 1 + mrate := h1
            _ ≤ (1 + mrate) ^ term_months := by
                exact le_self_pow₀ (by linarith) (by omega)
        have hden : 0 < (1 + mrate) ^ term_months - 1 := by linarith
        have hnum : 0 < principal * (mrate * (1 + mrate) ^ term_months) := by
          have : 0 < (1 + mrate) ^ term_months := by linarith
          positivity
        exact le_of_lt (div_pos hnum hden)

/-- Witness for C3 at `principal = 1200`, `mrate = 0`, `term = 12`. -/
theorem amortized_payment_spec_witness :
    (0 : ℚ) ≤ 0 ∧ 1 ≤ 12 ∧ amortized_payment 1200 0 12 = 100 := by
  refine ⟨le_refl 0, by norm_num, ?_⟩
  have h := (amortized_payment_spec 1200 0 12 (le_refl 0) (by norm_num)).2.1
    (by norm_num) rfl
  rw [h]
  norm_num

/-- C1: for the proportional strategy, `_simulate_single_run` raises the
insufficient-budget `ValueError` (reporting budget and required minimum)
iff `monthly_budget < min_total_payment - BUDGET_EPSILON`, where
`min_total_payment` sums the fixed amortized payments of the loans with
positive term.  In the embedding the error is returned before the monthly
loop, so on error no yearly breakdown exists and no balance was updated
(atomicity is structural). -/
theorem insufficient_budget_iff (cfg : SimulationConfig)
    (allocate annual_r : ℚ) (hs : cfg.debt_strategy = "proportional") :
    simulate_single_run cfg allocate annual_r
        = .error (.insufficientBudget cfg.monthly_budget
            (min_total_payment cfg))
      ↔ cfg.monthly_budget < min_total_payment cfg - BUDGET_EPSILON := by
  unfold simulate_single_run
  rw [if_neg (by simp [hs])]
  by_cases h : cfg.monthly_budget < min_total_payment cfg - BUDGET_EPSILON
  · rw [if_pos h]
    simp [h]
  · rw [if_neg h]
    simp [h]

/-- Witness for C1: `cfgBudget` (budget 50 < required 100) yields exactly
the insufficient-budget error. -/
theorem insufficient_budget_iff_witness :
    simulate_single_run cfgBudget 0 0
      = .error (.insufficientBudget cfgBudget.monthly_budget
          (min_total_payment cfgBudget)) :=
  (insufficient_budget_iff cfgBudget 0 0 rfl).mpr (by with_unfolding_all decide)

/-- C2: any strategy other than `"proportional"` makes every invocation of
`_simulate_single_run` — hence every Monte Carlo batch (with at least one
run) and all of `run_scenarios` — return the unimplemented-strategy error
before anything is simulated, and that error is a different constructor
from the insufficient-budget error. -/
theorem unimplemented_strategy (cfg : SimulationConfig)
    (hs : cfg.debt_strategy ≠ "proportional")
    (allocate annual_r g : ℚ) (gs gs1 gs2 gs3 : List ℚ) :
    simulate_single_run cfg allocate annual_r
        = .error (.notImplemented cfg.debt_strategy) ∧
    run_monte_carlo cfg allocate (g :: gs)
        = .error (.notImplemented cfg.debt_strategy) ∧
    run_scenarios cfg gs1 gs2 gs3
        = .error (.notImplemented cfg.debt_strategy) ∧
    (∀ b mt, SimError.notImplemented cfg.debt_strategy
        ≠ SimError.insufficientBudget b mt) := by
  have h1 : ∀ a r : ℚ, simulate_single_run cfg a r
      = .error (.notImplemented cfg.debt_strategy) := by
    intro a r
    unfold simulate_single_run
    rw [if_pos hs]
  refine ⟨h1 allocate annual_r, ?_, ?_, fun b mt h => SimError.noConfusion h⟩
  · unfold run_monte_carlo runAll
    rw [h1]
  · unfold run_scenarios run_scenario
    rw [h1]

/-- Witness for C2 at `cfgAvalanche`. -/
theorem unimplemented_strategy_witness :
    simulate_single_run cfgAvalanche 0 0
        = .error (.notImplemented cfgAvalanche.debt_strategy) ∧
    run_monte_carlo cfgAvalanche 0 [0]
        = .error (.notImplemented cfgAvalanche.debt_strategy) ∧
    run_scenarios cfgAvalanche [] [] []
        = .error (.notImplemented cfgAvalanche.debt_strategy) ∧
    (∀ b mt, SimError.notImplemented cfgAvalanche.debt_strategy
        ≠ SimError.insufficientBudget b mt) :=
  unimplemented_strategy cfgAvalanche (by decide) 0 0 0 [] [] [] []

/-- C5: with `invest_fraction = 0` (loan-first) the month's investment
contribution is 0 whenever some loan is active and the whole
`monthly_budget` when none is, and `monthStep` grows the investment
balance from exactly that contribution. -/
theorem loan_first_contrib (budget mret mfee : ℚ) (m : ℕ) (st : RunState) :
    (activeCount st.loans ≠ 0 →
      investContrib budget 0 st.loans st.freed_payments = 0) ∧
    (activeCount st.loans = 0 →
      investContrib budget 0 st.loans st.freed_payments = budget) ∧
    (monthStep budget 0 mret mfee m st).investment_balance
      = (st.investment_balance
            + investContrib budget 0 st.loans st.freed_payments)
          * (1 + mret) * (1 - mfee) := by
  refine ⟨fun ha => ?_, fun ha => ?_, ?_⟩
  · unfold investContrib
    rw [if_neg (by norm_num), if_pos rfl, if_neg ha]
  · unfold investContrib
    rw [if_neg (by norm_num), if_pos rfl, if_pos ha]
  · rw [monthStep_investment_balance]
    simp only [monthCore]

/-- Witness for C5 on a one-active-loan state and on a no-loan state. -/
theorem loan_first_contrib_witness :
    investContrib 1000 0 [{ balance := 5, rate := 0, base := 1 }] 0 = 0 ∧
    investContrib 1000 0 [] 0 = 1000 :=
  ⟨(loan_first_contrib 1000 0 0 1
      { loans := [{ balance := 5, rate := 0, base := 1 }]
        investment_balance := 0, year_interest_paid := 0
        year_principal_paid := 0, year_invested_total := 0
        year_investment_returns := 0, freed_payments := 0
        yearly := [] }).1 (by with_unfolding_all decide),
   (loan_first_contrib 1000 0 0 1
      { loans := [], investment_balance := 0, year_interest_paid := 0
        year_principal_paid := 0, year_invested_total := 0
        year_investment_returns := 0, freed_payments := 0
        yearly := [] }).2.1 (by with_unfolding_all decide)⟩

/-- C6: in split mode (`0 < f < 1`), with at least one active loan, the
sum of the per-loan extras (the common `extraPerLoan` over the
`activeCount` active loans) plus the discretionary-sourced investment
part `discretionary · f` equals the discretionary budget exactly. -/
theorem split_conservation (budget allocate : ℚ) (loans : List LoanState)
    (h0 : 0 < allocate) (h1 : allocate < 1)
    (ha : activeCount loans ≠ 0) :
    (activeCount loans : ℚ) * extraPerLoan budget allocate loans
      + discretionaryBudget budget loans * allocate
      = discretionaryBudget budget loans := by
  unfold extraPerLoan
  rw [if_pos ⟨h1, ha⟩]
  have hn : (activeCount loans : ℚ) ≠ 0 := Nat.cast_ne_zero.mpr ha
  field_simp
  ring

/-- The amount a month adds to `freed_payments` for one loan is never
negative. -/
theorem stepLoan_freedAdd_nonneg (extra : ℚ) (s : LoanState) :
    0 ≤ (stepLoan extra s).2.2.2 := by
  unfold stepLoan
  split
  · dsimp only
    split
    · next h => exact le_of_lt h.2
    · exact le_refl 0
  · exact le_refl 0

/-- The total freed-payment increment of a month is non-negative. -/
theorem freedSum_nonneg (extra : ℚ) (loans : List LoanState) :
    0 ≤ ((loans.map (stepLoan extra)).map (fun r => r.2.2.2)).sum := by
  induction loans with
  | nil => simp
  | cons a l ih =>
    simp only [List.map_cons, List.sum_cons]
    have := stepLoan_freedAdd_nonneg extra a
    linarith

/-- `monthStep` only ever adds to `freed_payments` (lines 252-254: the
counter is augmented on payoff and never reset). -/
theorem monthStep_freed_mono (budget allocate mret mfee : ℚ) (m : ℕ)
    (st : RunState) :
    st.freed_payments
      ≤ (monthStep budget allocate mret mfee m st).freed_payments := by
  rw [monthStep_freed_payments]
  simp only [monthCore]
  exact le_add_of_nonneg_right (freedSum_nonneg _ _)

/-- Witness for C6 with two active loans, budget 100, `f = 1/2`:
discretionary is 98, each loan's extra is 24.5 and the invested part 49. -/
theorem split_conservation_witness :
    (activeCount [({ balance := 5, rate := 0, base := 1 } : LoanState),
        { balance := 7, rate := 0, base := 1 }] : ℚ)
        * extraPerLoan 100 (1/2)
            [{ balance := 5, rate := 0, base := 1 },
             { balance := 7, rate := 0, base := 1 }]
      + discretionaryBudget 100
          [{ balance := 5, rate := 0, base := 1 },
           { balance := 7, rate := 0, base := 1 }] * (1/2)
      = discretionaryBudget 100
          [{ balance := 5, rate := 0, base := 1 },
           { balance := 7, rate := 0, base := 1 }] :=
  split_conservation 100 (1/2)
    [{ balance := 5, rate := 0, base := 1 },
     { balance := 7, rate := 0, base := 1 }]
    (by norm_num) (by norm_num) (by with_unfolding_all decide)

/-- C4 counterexample: in `cfgSplitPayoff`'s split-mode run (budget 100,
`invest_fraction = 1/2`, zero return and fee, so `monthStep 100 (1/2) 0 0`)
the loan is paid off in month 1, freeing its base payment 1 — yet month 2's
investment contribution is the full budget 100, not
`discretionary * invest_fraction + freed_payments = 100 * (1/2) + 1 = 51`
as the claim requires for every later month. -/
theorem freed_payments_contrib_cex :
    (runMonths 100 (1/2) 0 0 1 (initState cfgSplitPayoff)).freed_payments
        = 1 ∧
    investContrib 100 (1/2)
        (runMonths 100 (1/2) 0 0 1 (initState cfgSplitPayoff)).loans
        (runMonths 100 (1/2) 0 0 1 (initState cfgSplitPayoff)).freed_payments
      = 100 ∧
    discretionaryBudget 100
          (runMonths 100 (1/2) 0 0 1 (initState cfgSplitPayoff)).loans
          * (1/2)
        + (runMonths 100 (1/2) 0 0 1
            (initState cfgSplitPayoff)).freed_payments
      = 51 ∧
    (100 : ℚ) ≠ 51 := by
  with_unfolding_all decide

/-- C4 (amended): in split mode (`0 < invest_fraction < 1`) a paid-off
loan's base payment is accumulated into `freed_payments`, a counter that
`monthStep` never decreases, and in every subsequent month *in which at
least one loan is still active* the investment contribution equals
`discretionary * invest_fraction + freed_payments`; in months with no
active loan the contribution is the entire `monthly_budget` instead. -/
theorem freed_payments_carryover (budget allocate mret mfee : ℚ) (m : ℕ)
    (st : RunState) (h0 : 0 < allocate) (h1 : allocate < 1) :
    st.freed_payments
        ≤ (monthStep budget allocate mret mfee m st).freed_payments ∧
    (activeCount st.loans ≠ 0 →
      investContrib budget allocate st.loans st.freed_payments
        = discretionaryBudget budget st.loans * allocate
            + st.freed_payments) ∧
    (activeCount st.loans = 0 →
      investContrib budget allocate st.loans st.freed_payments
        = budget) := by
  refine ⟨monthStep_freed_mono budget allocate mret mfee m st,
    fun ha => ?_, fun ha => ?_⟩
  · unfold investContrib
    rw [if_neg (ne_of_lt h1), if_neg (ne_of_gt h0), if_neg ha]
  · unfold investContrib
    rw [if_neg (ne_of_lt h1), if_neg (ne_of_gt h0), if_pos ha]

/-- Witness for the amended C4 at the state reached after month 1 of
`cfgSplitPayoff` (no active loan, `freed_payments = 1`): the contribution
is the full budget, and `freed_payments` does not decrease. -/
theorem freed_payments_carryover_witness :
    ((0 : ℚ) < 1/2) ∧ ((1 : ℚ)/2 < 1) ∧
    ((runMonths 100 (1/2) 0 0 1 (initState cfgSplitPayoff)).freed_payments
        ≤ (monthStep 100 (1/2) 0 0 2
            (runMonths 100 (1/2) 0 0 1
              (initState cfgSplitPayoff))).freed_payments) ∧
    (activeCount
          (runMonths 100 (1/2) 0 0 1 (initState cfgSplitPayoff)).loans = 0 →
      investContrib 100 (1/2)
          (runMonths 100 (1/2) 0 0 1 (initState cfgSplitPayoff)).loans
          (runMonths 100 (1/2) 0 0 1
            (initState cfgSplitPayoff)).freed_payments
        = 100) := by
  have h := freed_payments_carryover 100 (1/2) 0 0 2
    (runMonths 100 (1/2) 0 0 1 (initState cfgSplitPayoff))
    (by norm_num) (by norm_num)
  exact ⟨by norm_num, by norm_num, h.1, h.2.2⟩

/-- The common extra paydown is non-negative whenever the invested
fraction is at most 1. -/
theorem extraPerLoan_nonneg (budget allocate : ℚ) (loans : List LoanState)
    (h1 : allocate ≤ 1) : 0 ≤ extraPerLoan budget allocate loans := by
  unfold extraPerLoan
  split
  · exact div_nonneg (mul_nonneg (le_max_left 0 _) (by linarith))
      (Nat.cast_nonneg _)
  · exact le_refl 0

/-- With a non-negative extra payment, a month never increases a loan's
balance (the applied principal is capped at the balance and never
negative). -/
theorem stepLoan_balance_le (extra : ℚ) (s : LoanState) (hx : 0 ≤ extra) :
    (stepLoan extra s).1.balance ≤ s.balance := by
  unfold stepLoan
  split
  · next h =>
    have hb : (0 : ℚ) < s.balance := by
      have := of_decide_eq_true h
      have heps : (0 : ℚ) < LOAN_BALANCE_EPSILON := by
        norm_num [LOAN_BALANCE_EPSILON]
      linarith [heps, this]
    dsimp only
    exact sub_le_self _
      (le_min (le_of_lt hb) (add_nonneg (le_max_left 0 _) hx))
  · exact le_refl _

/-- Balances stay non-negative through a month regardless of hypotheses:
the applied principal is `min balance _`. -/
theorem stepLoan_balance_nonneg (extra : ℚ) (s : LoanState)
    (h : 0 ≤ s.balance) : 0 ≤ (stepLoan extra s).1.balance := by
  unfold stepLoan
  split
  · dsimp only
    exact sub_nonneg.mpr (min_le_left _ _)
  · exact h

/-- Pointwise balance monotonicity over the mapped per-loan step. -/
theorem map_stepLoan_balance_le (e : ℚ) (he : 0 ≤ e)
    (l : List LoanState) :
    List.Forall₂ (fun s' s => s'.balance ≤ s.balance)
      (l.map fun s => (stepLoan e s).1) l := by
  induction l with
  | nil => exact List.Forall₂.nil
  | cons a t ih => exact List.Forall₂.cons (stepLoan_balance_le e a he) ih

/-- C10: each loan's balance is non-increasing across every simulated
month (for `invest_fraction ≤ 1`): the applied principal is capped at the
remaining balance; and for every active loan the interest tallied into the
year's interest-paid total is the full accrued `balance * rate` even when
it exceeds the fixed payment — the shortfall is never capitalized, since
the balance still only decreases. -/
theorem loan_balances_monotone (budget allocate mret mfee : ℚ) (m : ℕ)
    (st : RunState) (h1 : allocate ≤ 1) :
    List.Forall₂ (fun s' s => s'.balance ≤ s.balance)
        (monthStep budget allocate mret mfee m st).loans st.loans ∧
    (∀ s ∈ st.loans, isActive s →
      (stepLoan (extraPerLoan budget allocate st.loans) s).2.1
          = s.balance * s.rate ∧
      (stepLoan (extraPerLoan budget allocate st.loans) s).2.2.1
          ≤ s.balance) ∧
    (monthCore budget allocate mret mfee st).year_interest_paid
      = st.year_interest_paid
        + ((st.loans.map
            (stepLoan (extraPerLoan budget allocate st.loans))).map
              (fun r => r.2.1)).sum := by
  refine ⟨?_, fun s hs hact => ⟨?_, ?_⟩, by simp only [monthCore]⟩
  · rw [monthStep_loans]
    simp only [monthCore, List.map_map]
    exact map_stepLoan_balance_le _
      (extraPerLoan_nonneg budget allocate st.loans h1) st.loans
  · unfold stepLoan
    rw [if_pos hact]
  · unfold stepLoan
    rw [if_pos hact]
    dsimp only
    exact min_le_left _ _

/-- Witness for C10 on `stHighInterest`. -/
theorem loan_balances_monotone_witness :
    List.Forall₂ (fun s' s : LoanState => s'.balance ≤ s.balance)
        (monthStep 1000 0 0 0 1 stHighInterest).loans
        stHighInterest.loans ∧
    (∀ s ∈ stHighInterest.loans, isActive s →
      (stepLoan (extraPerLoan 1000 0 stHighInterest.loans) s).2.1
          = s.balance * s.rate ∧
      (stepLoan (extraPerLoan 1000 0 stHighInterest.loans) s).2.2.1
          ≤ s.balance) := by
  have h := loan_balances_monotone 1000 0 0 0 1 stHighInterest
    (by norm_num)
  exact ⟨h.1, h.2.1⟩

theorem investContrib_nonneg (budget allocate : ℚ)
    (loans : List LoanState) (freed : ℚ)
    (hb : 0 ≤ budget) (ha0 : 0 ≤ allocate) (hf : 0 ≤ freed) :
    0 ≤ investContrib budget allocate loans freed := by
  have hd : (0 : ℚ) ≤ discretionaryBudget budget loans := le_max_left 0 _
  unfold investContrib
  split
  · exact hd
  · split
    · split
      · exact hb
      · exact le_refl 0
    · split
      · exact hb
      · exact add_nonneg (mul_nonneg hd ha0) hf

theorem map_stepLoan_balances_nonneg (e : ℚ) :
    ∀ l : List LoanState, (∀ s ∈ l, 0 ≤ s.balance) →
      ∀ s' ∈ l.map (fun s => (stepLoan e s).1), 0 ≤ s'.balance := by
  intro l
  induction l with
  | nil => intro _ s' hs'; simp at hs'
  | cons a t ih =>
    intro h s' hs'
    rw [List.map_cons, List.mem_cons] at hs'
    rcases hs' with h1 | h2
    · rw [h1]
      exact stepLoan_balance_nonneg e a (h a (List.mem_cons_self a t))
    · exact ih (fun s hs => h s (List.mem_cons_of_mem a hs)) s' h2

theorem balanceSum_nonneg :
    ∀ l : List LoanState, (∀ s ∈ l, 0 ≤ s.balance) →
      0 ≤ (l.map (·.balance)).sum := by
  intro l
  induction l with
  | nil => intro _; simp
  | cons a t ih =>
    intro h
    simp only [List.map_cons, List.sum_cons]
    have ha := h a (List.mem_cons_self a t)
    have ht := ih fun s hs => h s (List.mem_cons_of_mem a hs)
    linarith

theorem monthCore_nonneg (budget allocate mret mfee : ℚ) (st : RunState)
    (hb : 0 ≤ budget) (ha0 : 0 ≤ allocate)
    (hr : 0 ≤ mret) (hf1 : mfee ≤ 1)
    (h : NonnegState st) :
    NonnegState (monthCore budget allocate mret mfee st) := by
  obtain ⟨hl, hi, hf⟩ := h
  have hcontrib := investContrib_nonneg budget allocate st.loans
    st.freed_payments hb ha0 hf
  refine ⟨?_, ?_, ?_⟩
  · simp only [monthCore, List.map_map]
    exact map_stepLoan_balances_nonneg _ st.loans hl
  · simp only [monthCore]
    exact mul_nonneg (mul_nonneg (add_nonneg hi hcontrib) (by linarith))
      (by linarith)
  · simp only [monthCore]
    exact add_nonneg hf (freedSum_nonneg _ _)

theorem monthStep_nonneg (budget allocate mret mfee : ℚ) (m : ℕ)
    (st : RunState)
    (hb : 0 ≤ budget) (ha0 : 0 ≤ allocate)
    (hr : 0 ≤ mret) (hf1 : mfee ≤ 1)
    (h : NonnegState st) :
    NonnegState (monthStep budget allocate mret mfee m st) := by
  have hc := monthCore_nonneg budget allocate mret mfee st hb ha0 hr hf1 h
  refine ⟨?_, ?_, ?_⟩
  · rw [monthStep_loans]
    exact hc.1
  · rw [monthStep_investment_balance]
    exact hc.2.1
  · rw [monthStep_freed_payments]
    exact hc.2.2

theorem runMonths_succ (budget allocate mret mfee : ℚ) (k : ℕ)
    (st : RunState) :
    runMonths budget allocate mret mfee (k + 1) st
      = monthStep budget allocate mret mfee (k + 1)
          (runMonths budget allocate mret mfee k st) := by
  unfold runMonths
  rw [List.range_succ, List.foldl_append]
  rfl

theorem runMonths_nonneg (budget allocate mret mfee : ℚ)
    (hb : 0 ≤ budget) (ha0 : 0 ≤ allocate)
    (hr : 0 ≤ mret) (hf1 : mfee ≤ 1)
    (st : RunState) (h : NonnegState st) :
    ∀ k, NonnegState (runMonths budget allocate mret mfee k st)
  | 0 => h
  | k + 1 => by
    rw [runMonths_succ]
    exact monthStep_nonneg budget allocate mret mfee (k + 1) _ hb ha0 hr hf1
      (runMonths_nonneg budget allocate mret mfee hb ha0 hr hf1 st h k)

theorem initState_nonneg (cfg : SimulationConfig)
    (hp : ∀ l ∈ cfg.loans, 0 ≤ l.principal)
    (hi : 0 ≤ cfg.investment.initial_amount) :
    NonnegState (initState cfg) := by
  refine ⟨?_, hi, le_refl 0⟩
  simp only [initState]
  intro s hs
  rw [List.mem_map] at hs
  obtain ⟨l, hl, rfl⟩ := hs
  exact hp l hl

/-- C7 (amended): for configurations within the §6 bounds *and with
`annual_fee_pct ≤ 12`* (monthly fee at most 100%), every loan balance and
the investment balance are non-negative after every simulated month `k`,
and the run's returned remaining loan balance and investment balance are
non-negative.  `allocate` ranges over `[0, 1]`, covering the loan-first,
invest-first and split scenarios. -/
theorem scenario_balances_nonneg (cfg : SimulationConfig) (allocate : ℚ)
    (k : ℕ) (out : SingleRunOutput)
    (hb : 0 ≤ cfg.monthly_budget)
    (ha0 : 0 ≤ allocate) (ha1 : allocate ≤ 1)
    (hr : 0 ≤ cfg.investment.annual_return)
    (hf1 : cfg.investment.annual_fee_pct ≤ 12)
    (hp : ∀ l ∈ cfg.loans, 0 ≤ l.principal)
    (hi : 0 ≤ cfg.investment.initial_amount)
    (hout : simulate_single_run cfg allocate cfg.investment.annual_return
      = .ok out) :
    (∀ s ∈ (runMonths cfg.monthly_budget allocate
        (cfg.investment.annual_return / 12)
        (cfg.investment.annual_fee_pct / MONTHS_PER_YEAR) k
        (initState cfg)).loans, 0 ≤ s.balance) ∧
    0 ≤ (runMonths cfg.monthly_budget allocate
        (cfg.investment.annual_return / 12)
        (cfg.investment.annual_fee_pct / MONTHS_PER_YEAR) k
        (initState cfg)).investment_balance ∧
    0 ≤ out.loans_remaining_balance ∧ 0 ≤ out.investment_balance := by
  have hmret : 0 ≤ cfg.investment.annual_return / 12 := by positivity
  have hmfee : cfg.investment.annual_fee_pct / MONTHS_PER_YEAR ≤ 1 := by
    rw [MONTHS_PER_YEAR, div_le_one (by norm_num)]
    linarith
  have hinv := runMonths_nonneg cfg.monthly_budget allocate
    (cfg.investment.annual_return / 12)
    (cfg.investment.annual_fee_pct / MONTHS_PER_YEAR)
    hb ha0 hmret hmfee (initState cfg) (initState_nonneg cfg hp hi)
  refine ⟨(hinv k).1, (hinv k).2.1, ?_⟩
  unfold simulate_single_run at hout
  by_cases hst : cfg.debt_strategy ≠ "proportional"
  · rw [if_pos hst] at hout
    exact absurd hout (by simp)
  rw [if_neg hst] at hout
  by_cases hbud : cfg.monthly_budget < min_total_payment cfg - BUDGET_EPSILON
  · rw [if_pos hbud] at hout
    exact absurd hout (by simp)
  rw [if_neg hbud, Except.ok.injEq] at hout
  subst hout
  have hfin := hinv (cfg.horizon_years * 12)
  exact ⟨balanceSum_nonneg _ hfin.1, hfin.2.1⟩

/-- C7 counterexample: `cfgFee` satisfies every §6 bound (which only
requires the fee to be non-negative), yet the loan-first deterministic
run of `run_scenarios` ends with investment balance −34125/1024 < 0: a
monthly fee above 100% makes the factor `1 − monthly_fee` negative. -/
theorem investment_balance_negative_cex :
    ((run_scenarios cfgFee [] [] []).toOption.map
        (fun m => m.loan_first.investment_balance)).getD 0 < 0 := by
  with_unfolding_all decide

set_option maxRecDepth 8000 in
/-- Witness for amended C7 at `cfgSplitPayoff`, `allocate = 1/2`,
`k = 3`. -/
theorem scenario_balances_nonneg_witness :
    (∀ s ∈ (runMonths cfgSplitPayoff.monthly_budget (1/2)
        (cfgSplitPayoff.investment.annual_return / 12)
        (cfgSplitPayoff.investment.annual_fee_pct / MONTHS_PER_YEAR) 3
        (initState cfgSplitPayoff)).loans, 0 ≤ s.balance) ∧
    0 ≤ (runMonths cfgSplitPayoff.monthly_budget (1/2)
        (cfgSplitPayoff.investment.annual_return / 12)
        (cfgSplitPayoff.investment.annual_fee_pct / MONTHS_PER_YEAR) 3
        (initState cfgSplitPayoff)).investment_balance ∧
    0 ≤ outSplitPayoff.loans_remaining_balance ∧
    0 ≤ outSplitPayoff.investment_balance :=
  scenario_balances_nonneg cfgSplitPayoff (1/2) 3 outSplitPayoff
    (by norm_num [cfgSplitPayoff]) (by norm_num) (by norm_num)
    (by norm_num [cfgSplitPayoff]) (by norm_num [cfgSplitPayoff])
    (by
      intro l hl
      simp only [cfgSplitPayoff, List.mem_singleton] at hl
      subst hl
      norm_num)
    (by norm_num [cfgSplitPayoff])
    (by with_unfolding_all decide)

theorem sortQ_sorted (l : List ℚ) : (sortQ l).Sorted (· ≤ ·) :=
  List.sorted_insertionSort _ l

theorem sortQ_length (l : List ℚ) : (sortQ l).length = l.length :=
  List.length_insertionSort _ l

/-- Nearest-rank indexing into the ascending sort is monotone in the
index. -/
theorem sortQ_getD_mono (l : List ℚ) {i j : ℕ} (hij : i ≤ j)
    (hj : j < (sortQ l).length) :
    (sortQ l).getD i 0 ≤ (sortQ l).getD j 0 := by
  have hi : i < (sortQ l).length := lt_of_le_of_lt hij hj
  rw [List.getD_eq_getElem _ _ hi, List.getD_eq_getElem _ _ hj]
  exact (sortQ_sorted l).rel_get_of_le (Fin.mk_le_mk.mpr hij)

theorem runAll_ok_length (cfg : SimulationConfig) (allocate : ℚ) :
    ∀ (gs : List ℚ) (outs : List SingleRunOutput),
      runAll cfg allocate gs = .ok outs → outs.length = gs.length := by
  intro gs
  induction gs with
  | nil =>
    intro outs h
    unfold runAll at h
    rw [← Except.ok.inj h]
    rfl
  | cons g t ih =>
    intro outs h
    unfold runAll at h
    rcases hs : simulate_single_run cfg allocate
        (gaussSample cfg.investment.annual_return cfg.return_volatility g)
      with e | o
    · rw [hs] at h
      exact absurd h (by simp)
    rw [hs] at h
    dsimp only at h
    rcases hr : runAll cfg allocate t with e | rest
    · rw [hr] at h
      exact absurd h (by simp)
    rw [hr] at h
    dsimp only at h
    rw [← Except.ok.inj h]
    simp [ih rest hr]

/-- C8: `_run_monte_carlo` (here with the per-run draws `gs` explicit)
sorts the terminal net worths and takes the mean as `sum / n`, the median
and the 10th/90th percentiles at nearest-rank indices `⌊n/2⌋, ⌊n/10⌋,
⌊9n/10⌋`, and the success probability as the fraction of runs with
strictly positive net worth — all per the definition of
`run_monte_carlo`; consequently for every non-empty run set,
`percentile_10 ≤ median ≤ percentile_90` and the success probability lies
in `[0, 1]`. -/
theorem monte_carlo_stats (cfg : SimulationConfig) (allocate : ℚ)
    (gs : List ℚ) (r : MonteCarloResult) (hgs : gs ≠ [])
    (hmc : run_monte_carlo cfg allocate gs = .ok r) :
    r.percentile_10 ≤ r.median_net_worth ∧
    r.median_net_worth ≤ r.percentile_90 ∧
    0 ≤ r.success_probability ∧ r.success_probability ≤ 1 := by
  unfold run_monte_carlo at hmc
  rcases hruns : runAll cfg allocate gs with e | outs
  · rw [hruns] at hmc
    exact absurd hmc (by simp)
  rw [hruns] at hmc
  dsimp only at hmc
  rw [Except.ok.injEq] at hmc
  subst hmc
  set nws := outs.map
    (fun o => o.investment_balance - o.loans_remaining_balance) with hnws
  have hlenout : outs.length = gs.length := runAll_ok_length _ _ _ _ hruns
  have hlen : (sortQ nws).length = gs.length := by
    rw [sortQ_length, hnws, List.length_map, hlenout]
  have hn : 0 < (sortQ nws).length := by
    rw [hlen]
    exact List.length_pos.mpr hgs
  refine ⟨?_, ?_, ?_, ?_⟩
  · dsimp only
    apply sortQ_getD_mono nws (Nat.div_le_div_left (by norm_num) (by norm_num))
    omega
  · dsimp only
    have h59 : (sortQ nws).length / 2 ≤ 9 * (sortQ nws).length / 10 := by
      omega
    apply sortQ_getD_mono nws h59
    omega
  · dsimp only
    positivity
  · dsimp only
    rw [div_le_one (by exact_mod_cast hn)]
    have hfl : (nws.filter (fun nw => 0 < nw)).length ≤ nws.length :=
      List.length_filter_le _ _
    have : nws.length = (sortQ nws).length := (sortQ_length nws).symm
    exact_mod_cast le_trans hfl (le_of_eq this)

set_option maxRecDepth 8000 in
/-- Witness for C8 at `cfgMC` with draws `[0, 0]`. -/
theorem monte_carlo_stats_witness :
    mcOut.percentile_10 ≤ mcOut.median_net_worth ∧
    mcOut.median_net_worth ≤ mcOut.percentile_90 ∧
    0 ≤ mcOut.success_probability ∧ mcOut.success_probability ≤ 1 :=
  monte_carlo_stats cfgMC 0 [0, 0] mcOut (by simp)
    (by with_unfolding_all decide)

theorem sortQ_singleton (x : ℚ) : sortQ [x] = [x] :=
  rfl

/-- C9: with `return_volatility = 0` the sampled annual return degenerates
to the configured mean, so a stochastic single run equals the
deterministic run — same yearly breakdowns and both balances — and a
one-run Monte Carlo batch (`monte_carlo_runs = 1`) reports the
deterministic terminal net worth in every aggregate. -/
theorem stochastic_degenerate (cfg : SimulationConfig) (allocate g : ℚ)
    (out : SingleRunOutput) (hv : cfg.return_volatility = 0)
    (hdet : simulate_single_run cfg allocate cfg.investment.annual_return
      = .ok out) :
    simulate_single_run cfg allocate
        (gaussSample cfg.investment.annual_return cfg.return_volatility g)
      = .ok out ∧
    (∃ r, run_monte_carlo cfg allocate [g] = .ok r ∧
      r.mean_net_worth
          = out.investment_balance - out.loans_remaining_balance ∧
      r.median_net_worth
          = out.investment_balance - out.loans_remaining_balance ∧
      r.percentile_10
          = out.investment_balance - out.loans_remaining_balance ∧
      r.percentile_90
          = out.investment_balance - out.loans_remaining_balance) := by
  have hg : gaussSample cfg.investment.annual_return cfg.return_volatility g
      = cfg.investment.annual_return := by
    rw [hv]
    simp [gaussSample]
  have hone : simulate_single_run cfg allocate
      (gaussSample cfg.investment.annual_return cfg.return_volatility g)
      = .ok out := by
    rw [hg]
    exact hdet
  refine ⟨hone, ?_⟩
  have hrunAll : runAll cfg allocate [g] = .ok [out] := by
    unfold runAll
    rw [hone]
    rfl
  unfold run_monte_carlo
  rw [hrunAll]
  refine ⟨_, rfl, ?_, ?_, ?_, ?_⟩ <;>
    simp [sortQ_singleton, List.getD]

set_option maxRecDepth 8000 in
/-- Witness for C9 at `cfgSplitPayoff` (volatility 0), draw `g = 7`. -/
theorem stochastic_degenerate_witness :
    simulate_single_run cfgSplitPayoff (1/2)
        (gaussSample cfgSplitPayoff.investment.annual_return
          cfgSplitPayoff.return_volatility 7)
      = .ok outSplitPayoff ∧
    (∃ r, run_monte_carlo cfgSplitPayoff (1/2) [7] = .ok r ∧
      r.mean_net_worth
          = outSplitPayoff.investment_balance
              - outSplitPayoff.loans_remaining_balance ∧
      r.median_net_worth
          = outSplitPayoff.investment_balance
              - outSplitPayoff.loans_remaining_balance ∧
      r.percentile_10
          = outSplitPayoff.investment_balance
              - outSplitPayoff.loans_remaining_balance ∧
      r.percentile_90
          = outSplitPayoff.investment_balance
              - outSplitPayoff.loans_remaining_balance) := by
  apply stochastic_degenerate cfgSplitPayoff (1/2) 7 outSplitPayoff rfl
  with_unfolding_all decide

end Payvest
